import Mathlib

/-!
Verification development for the push-to-talk dictation core:
the audio recorder (src/audio/recorder.py), the streaming transcriber
(src/services/transcriber.py), the post-processor (src/postprocess.py)
and the session controller with its generation counter (src/controller.py).

Each Python component is shallowly embedded as executable Lean definitions;
stateful methods become explicit state-passing functions, thread
interleavings become a step relation, and fallible backends become
function parameters returning `Except`.
-/

set_option maxHeartbeats 1000000

/-! ## Audio recorder (src/audio/recorder.py, class AudioRecorder)

The recorder owns one optional physical input stream, a `recording` flag,
a frame buffer, and a current queue.  Queues are identified by allocation
order (`Nat` ids): the queue allocated in `__init__` has id 0, and each
`start()` allocates the next id.  Python compares queues by object
identity (`self.audio_queue is queue_ref`), which the ids model exactly.
`sentinels q` counts how many end-of-stream sentinels have ever been
pushed into queue `q`.  Every stream open/close and every sentinel push
is also appended to an event trace so that "at most one stream open at
any instant" can be stated about every intermediate point of execution.
-/

/-- Primitive recorder events, in execution order: a physical input
stream opening, a stream closing, or an end-of-stream sentinel being
pushed into queue `q`. -/
inductive REv where
  | openS : REv
  | closeS : REv
  | sent (q : Nat) : REv
deriving DecidableEq, Repr

/-- State of one `AudioRecorder` instance.  `streamOpen` models
`self._stream is not None`, `curQueue` the identity of
`self.audio_queue`, `nextQueue` the id the next allocated queue will
get, `frames` the `self._frames` chunk list, `sentinels` the number of
sentinels ever pushed into each queue, and `events` the trace of
primitive events so far. -/
structure RecState where
  recording : Bool
  streamOpen : Bool
  curQueue : Nat
  nextQueue : Nat
  frames : List (List Int)
  sentinels : Nat → Nat
  events : List REv

/-- Recorder state after `__init__`: not recording, no stream, the
constructor-allocated queue (id 0) current. -/
def initRec : RecState :=
  { recording := false, streamOpen := false, curQueue := 0, nextQueue := 1,
    frames := [], sentinels := fun _ => 0, events := [] }

/-- One `queue_ref.put(_AUDIO_QUEUE_SENTINEL)`. -/
def pushSent (f : Nat → Nat) (q : Nat) : Nat → Nat :=
  fun q2 => if q2 = q then f q2 + 1 else f q2

namespace AudioRecorder

/-- `AudioRecorder.start` (src/audio/recorder.py lines 53-83).  Under the
lock: if already recording, capture the stream and old queue for forcible
shutdown; reset the frame buffer; allocate a fresh queue; set
`recording = True`.  After the lock: if a stream was captured
(`stream_to_close is not None`, i.e. the recorder was recording and held
a stream), push the sentinel into the old queue and stop/close the old
stream.  Finally open and start a new input stream. -/
def start (s : RecState) : RecState :=
  let doClose := s.recording && s.streamOpen
  { recording := true
    streamOpen := true
    curQueue := s.nextQueue
    nextQueue := s.nextQueue + 1
    frames := []
    sentinels := if doClose then pushSent s.sentinels s.curQueue else s.sentinels
    events := s.events ++ (if doClose then [REv.sent s.curQueue, REv.closeS] else [])
                ++ [REv.openS] }

/-- `AudioRecorder.stop` (src/audio/recorder.py lines 85-108).  Early
return `None` when not recording; otherwise clear the flag, stop/close
the stream if present, push the sentinel into the current queue, and
return the concatenated frames (or `None` when the buffer is empty). -/
def stop (s : RecState) : RecState × Option (List Int) :=
  if !s.recording then (s, none)
  else
    ({ s with
        recording := false
        streamOpen := false
        sentinels := pushSent s.sentinels s.curQueue
        frames := []
        events := s.events ++ (if s.streamOpen then [REv.closeS] else [])
                    ++ [REv.sent s.curQueue] },
     if s.frames.isEmpty then none else some s.frames.flatten)

/-- `AudioRecorder.finalize` (src/audio/recorder.py lines 110-138).
Under the lock: decide `should_stop_stream` — true exactly when the
recorder is recording and `queue_ref` is still the current queue.  Then
stop/close the stream when so decided (and a stream is present), and in
all cases push the sentinel into `queue_ref`. -/
def finalize (s : RecState) (q : Nat) : RecState :=
  let shouldStop := s.recording && s.curQueue == q
  { s with
      recording := if shouldStop then false else s.recording
      streamOpen := if shouldStop then false else s.streamOpen
      sentinels := pushSent s.sentinels q
      events := s.events ++ (if shouldStop && s.streamOpen then [REv.closeS] else [])
                  ++ [REv.sent q] }

end AudioRecorder

/-- An external call into the recorder: the three public methods that
the claims quantify over. -/
inductive ROp where
  | start : ROp
  | stop : ROp
  | finalize (q : Nat) : ROp
deriving DecidableEq, Repr

/-- Apply one recorder call (discarding `stop`'s return value). -/
def rstep (s : RecState) : ROp → RecState
  | ROp.start => AudioRecorder.start s
  | ROp.stop => (AudioRecorder.stop s).fst
  | ROp.finalize q => AudioRecorder.finalize s q

/-- Run a sequence of recorder calls from a state. -/
def runRec (s : RecState) : List ROp → RecState
  | [] => s
  | op :: rest => runRec (rstep s op) rest

/-- Number of streams open after a list of events, starting from `n`
open streams. -/
def ocnt (n : Int) : List REv → Int
  | [] => n
  | REv.openS :: l => ocnt (n + 1) l
  | REv.closeS :: l => ocnt (n - 1) l
  | REv.sent _ :: l => ocnt n l

/-- The open-stream count starts at `n`, stays within `[0, 1]` at every
intermediate point of the event list, and ends within `[0, 1]`. -/
def okFrom (n : Int) : List REv → Prop
  | [] => 0 ≤ n ∧ n ≤ 1
  | REv.openS :: l => (0 ≤ n ∧ n ≤ 1) ∧ okFrom (n + 1) l
  | REv.closeS :: l => (0 ≤ n ∧ n ≤ 1) ∧ okFrom (n - 1) l
  | REv.sent _ :: l => (0 ≤ n ∧ n ≤ 1) ∧ okFrom n l

theorem ocnt_append (n : Int) (l1 l2 : List REv) :
    ocnt n (l1 ++ l2) = ocnt (ocnt n l1) l2 := by
  induction l1 generalizing n with
  | nil => rfl
  | cons e l ih => cases e <;> simp [ocnt, ih]

theorem okFrom_append {n : Int} {l1 l2 : List REv}
    (h1 : okFrom n l1) (h2 : okFrom (ocnt n l1) l2) : okFrom n (l1 ++ l2) := by
  induction l1 generalizing n with
  | nil =>
    cases l2 with
    | nil => exact h1
    | cons e l => exact h2
  | cons e l ih =>
    cases e <;> exact ⟨h1.1, ih h1.2 h2⟩

theorem okFrom_self {n : Int} {l : List REv} (h : okFrom n l) : 0 ≤ n ∧ n ≤ 1 := by
  cases l with
  | nil => exact h
  | cons e l => cases e <;> exact h.1

/-- Every decomposition point of an `okFrom` trace has a bounded count. -/
theorem okFrom_split {n : Int} {l p q : List REv}
    (h : okFrom n l) (hpq : l = p ++ q) : 0 ≤ ocnt n p ∧ ocnt n p ≤ 1 := by
  induction p generalizing n l with
  | nil => simpa [ocnt] using okFrom_self h
  | cons e pr ih =>
    subst hpq
    cases e <;> exact ih h.2 rfl

theorem pushSent_le (f : Nat → Nat) (q q2 : Nat) : f q2 ≤ pushSent f q q2 := by
  unfold pushSent
  split <;> omega

theorem pushSent_self (f : Nat → Nat) (q : Nat) : pushSent f q q = f q + 1 := by
  simp [pushSent]

/-- Reachability invariant of the recorder under the public calls:
the stream is open exactly while recording; the event trace keeps the
open-stream count within `[0, 1]` at every point and ends at the current
stream state; the current queue id is valid; every session queue (id
`≥ 1`) that is no longer current has received at least one sentinel; and
when not recording the current session queue has received one too. -/
structure RecInv (s : RecState) : Prop where
  streamRec : s.streamOpen = s.recording
  cnt : ocnt 0 s.events = if s.streamOpen then 1 else 0
  ok : okFrom 0 s.events
  curLt : s.curQueue < s.nextQueue
  nonCurSent : ∀ q, 1 ≤ q → q < s.nextQueue → q ≠ s.curQueue → 1 ≤ s.sentinels q
  curSent : s.recording = false → 1 ≤ s.curQueue → 1 ≤ s.sentinels s.curQueue

theorem recInv_init : RecInv initRec := by
  refine ⟨rfl, by norm_num [initRec, ocnt], by norm_num [initRec, okFrom], by norm_num [initRec],
    ?_, ?_⟩
  · intro q h1 h2 h3
    simp only [initRec] at h2
    omega
  · intro _ h1
    simp only [initRec] at h1
    omega

theorem recInv_start {s : RecState} (h : RecInv s) : RecInv (AudioRecorder.start s) := by
  obtain ⟨hsr, hcnt, hok, hlt, hnc, hcs⟩ := h
  cases hr : s.recording with
  | false =>
    have hso : s.streamOpen = false := by rw [hsr, hr]
    have hcnt0 : ocnt 0 s.events = 0 := by rw [hcnt, hso]; norm_num
    have hstart : AudioRecorder.start s =
        { recording := true, streamOpen := true, curQueue := s.nextQueue,
          nextQueue := s.nextQueue + 1, frames := [], sentinels := s.sentinels,
          events := s.events ++ [REv.openS] } := by
      simp [AudioRecorder.start, hr, hso]
    rw [hstart]
    refine ⟨rfl, ?_, ?_, by simp, ?_, ?_⟩
    · simp [ocnt_append, hcnt0, ocnt]
    · exact okFrom_append hok (by rw [hcnt0]; norm_num [okFrom, ocnt])
    · intro q h1 h2 h3
      simp only at h2 h3 ⊢
      rcases Nat.lt_or_ge q s.nextQueue with hq | hq
      · rcases eq_or_ne q s.curQueue with hqc | hqc
        · subst hqc
          exact hcs hr h1
        · exact hnc q h1 hq hqc
      · omega
    · intro hfalse _
      exact absurd hfalse (by simp)
  | true =>
    have hso : s.streamOpen = true := by rw [hsr, hr]
    have hcnt1 : ocnt 0 s.events = 1 := by rw [hcnt, hso]; norm_num
    have hstart : AudioRecorder.start s =
        { recording := true, streamOpen := true, curQueue := s.nextQueue,
          nextQueue := s.nextQueue + 1, frames := [],
          sentinels := pushSent s.sentinels s.curQueue,
          events := s.events ++ [REv.sent s.curQueue, REv.closeS, REv.openS] } := by
      simp [AudioRecorder.start, hr, hso]
    rw [hstart]
    refine ⟨rfl, ?_, ?_, by simp, ?_, ?_⟩
    · simp [ocnt_append, hcnt1, ocnt]
    · exact okFrom_append hok (by rw [hcnt1]; norm_num [okFrom, ocnt])
    · intro q h1 h2 h3
      simp only at h2 h3 ⊢
      rcases eq_or_ne q s.curQueue with hqc | hqc
      · subst hqc
        have := pushSent_self s.sentinels s.curQueue
        omega
      · have hle := pushSent_le s.sentinels s.curQueue q
        rcases Nat.lt_or_ge q s.nextQueue with hq | hq
        · have := hnc q h1 hq hqc
          omega
        · omega
    · intro hfalse _
      exact absurd hfalse (by simp)

theorem recInv_stop {s : RecState} (h : RecInv s) : RecInv (AudioRecorder.stop s).fst := by
  obtain ⟨hsr, hcnt, hok, hlt, hnc, hcs⟩ := h
  cases hr : s.recording with
  | false =>
    have hid : (AudioRecorder.stop s).fst = s := by
      simp [AudioRecorder.stop, hr]
    rw [hid]
    exact ⟨hsr, hcnt, hok, hlt, hnc, hcs⟩
  | true =>
    have hso : s.streamOpen = true := by rw [hsr, hr]
    have hcnt1 : ocnt 0 s.events = 1 := by rw [hcnt, hso]; norm_num
    have hstop : (AudioRecorder.stop s).fst =
        { recording := false, streamOpen := false, curQueue := s.curQueue,
          nextQueue := s.nextQueue, frames := [],
          sentinels := pushSent s.sentinels s.curQueue,
          events := s.events ++ [REv.closeS, REv.sent s.curQueue] } := by
      simp [AudioRecorder.stop, hr, hso]
    rw [hstop]
    refine ⟨rfl, ?_, ?_, by simpa using hlt, ?_, ?_⟩
    · simp [ocnt_append, hcnt1, ocnt]
    · exact okFrom_append hok (by rw [hcnt1]; norm_num [okFrom, ocnt])
    · intro q h1 h2 h3
      simp only at h2 h3 ⊢
      have hle := pushSent_le s.sentinels s.curQueue q
      have := hnc q h1 h2 h3
      omega
    · intro _ h1
      simp only at h1 ⊢
      have := pushSent_self s.sentinels s.curQueue
      omega

theorem recInv_finalize {s : RecState} (h : RecInv s) (q : Nat) :
    RecInv (AudioRecorder.finalize s q) := by
  obtain ⟨hsr, hcnt, hok, hlt, hnc, hcs⟩ := h
  by_cases hss : (s.recording && s.curQueue == q) = true
  · have hr : s.recording = true := (Bool.and_eq_true_iff.mp hss).1
    have hq : s.curQueue = q := by simpa using (Bool.and_eq_true_iff.mp hss).2
    have hso : s.streamOpen = true := by rw [hsr, hr]
    have hcnt1 : ocnt 0 s.events = 1 := by rw [hcnt, hso]; norm_num
    have hfin : AudioRecorder.finalize s q =
        { recording := false, streamOpen := false, curQueue := s.curQueue,
          nextQueue := s.nextQueue, frames := s.frames,
          sentinels := pushSent s.sentinels q,
          events := s.events ++ [REv.closeS, REv.sent q] } := by
      simp [AudioRecorder.finalize, hss, hso]
    rw [hfin]
    refine ⟨rfl, ?_, ?_, by simpa using hlt, ?_, ?_⟩
    · simp [ocnt_append, hcnt1, ocnt]
    · exact okFrom_append hok (by rw [hcnt1]; norm_num [okFrom, ocnt])
    · intro q2 h1 h2 h3
      simp only at h2 h3 ⊢
      have hle := pushSent_le s.sentinels q q2
      have := hnc q2 h1 h2 h3
      omega
    · intro _ h1
      simp only at h1 ⊢
      rw [← hq, pushSent_self]
      omega
  · have hs2 : (s.recording && s.curQueue == q) = false := by
      simpa using hss
    have hfin : AudioRecorder.finalize s q =
        { recording := s.recording, streamOpen := s.streamOpen, curQueue := s.curQueue,
          nextQueue := s.nextQueue, frames := s.frames,
          sentinels := pushSent s.sentinels q,
          events := s.events ++ [REv.sent q] } := by
      simp [AudioRecorder.finalize, hs2]
    rw [hfin]
    refine ⟨hsr, ?_, ?_, by simpa using hlt, ?_, ?_⟩
    · simp only
      rw [ocnt_append, hcnt]
      cases hsov : s.streamOpen <;> norm_num [ocnt]
    · refine okFrom_append hok ?_
      rw [hcnt]
      cases hsov : s.streamOpen <;> norm_num [okFrom, ocnt]
    · intro q2 h1 h2 h3
      simp only at h2 h3 ⊢
      have hle := pushSent_le s.sentinels q q2
      have := hnc q2 h1 h2 h3
      omega
    · intro hrec h1
      simp only at hrec h1 ⊢
      have hle := pushSent_le s.sentinels q s.curQueue
      have := hcs hrec h1
      omega

theorem recInv_rstep {s : RecState} (h : RecInv s) (op : ROp) : RecInv (rstep s op) := by
  cases op with
  | start => exact recInv_start h
  | stop => exact recInv_stop h
  | finalize q => exact recInv_finalize h q

theorem recInv_runRec {s : RecState} (h : RecInv s) (ops : List ROp) :
    RecInv (runRec s ops) := by
  induction ops generalizing s with
  | nil => exact h
  | cons op rest ih => exact ih (recInv_rstep h op)

/-- C9: for every recorder state, calling `stop()` twice in a row returns
`None` the second time (Python: no samples) and, the embedding being a
total function mirroring the early-return path, does not raise; the
second call also leaves the state untouched. -/
theorem stop_twice_returns_none (s : RecState) :
    (AudioRecorder.stop (AudioRecorder.stop s).fst).snd = none ∧
    (AudioRecorder.stop (AudioRecorder.stop s).fst).fst = (AudioRecorder.stop s).fst := by
  have key : ∀ t : RecState, t.recording = false → AudioRecorder.stop t = (t, none) := by
    intro t ht
    simp [AudioRecorder.stop, ht]
  have hrec : (AudioRecorder.stop s).fst.recording = false := by
    cases hr : s.recording <;> simp [AudioRecorder.stop, hr]
  rw [key _ hrec]
  exact ⟨rfl, rfl⟩

/-- C3: `finalize(queueRef)` never touches the physical stream when
`queueRef` is no longer current; stops it when `queueRef` is current and
recording is active; always pushes exactly one end-of-stream sentinel
into `queueRef` and into no other queue.  Consequently a tail finalize
that fires after a new session has started (run `[start, start]`, then
`finalize` against the first session's queue, id 1) leaves the second
session recording on its open stream and its fresh queue (id 2) without
a sentinel. -/
theorem finalize_session_scoped (s : RecState) (q : Nat) :
    (s.curQueue ≠ q →
      (AudioRecorder.finalize s q).streamOpen = s.streamOpen ∧
      (AudioRecorder.finalize s q).recording = s.recording) ∧
    (s.curQueue = q → s.recording = true →
      (AudioRecorder.finalize s q).streamOpen = false ∧
      (AudioRecorder.finalize s q).recording = false) ∧
    ((AudioRecorder.finalize s q).sentinels q = s.sentinels q + 1) ∧
    (∀ q2, q2 ≠ q → (AudioRecorder.finalize s q).sentinels q2 = s.sentinels q2) ∧
    ((AudioRecorder.finalize (runRec initRec [ROp.start, ROp.start]) 1).streamOpen = true ∧
     (AudioRecorder.finalize (runRec initRec [ROp.start, ROp.start]) 1).recording = true ∧
     (AudioRecorder.finalize (runRec initRec [ROp.start, ROp.start]) 1).sentinels 2 = 0 ∧
     (AudioRecorder.finalize (runRec initRec [ROp.start, ROp.start]) 1).sentinels 1 = 2) := by
  refine ⟨?_, ?_, ?_, ?_, by decide, by decide, by decide, by decide⟩
  · intro hne
    have hbe : (s.curQueue == q) = false := by
      simpa using hne
    simp [AudioRecorder.finalize, hbe]
  · intro heq hr
    have hbe : (s.curQueue == q) = true := by
      simpa using heq
    simp [AudioRecorder.finalize, hbe, hr]
  · simp [AudioRecorder.finalize, pushSent_self]
  · intro q2 hq2
    simp [AudioRecorder.finalize, pushSent, hq2]

/-- C3 witness: the properties of `finalize_session_scoped` instantiated
at the state reached by one `start` call and the stale queue id 0. -/
theorem finalize_session_scoped_witness :
    ((runRec initRec [ROp.start]).curQueue ≠ 0 →
      (AudioRecorder.finalize (runRec initRec [ROp.start]) 0).streamOpen
        = (runRec initRec [ROp.start]).streamOpen ∧
      (AudioRecorder.finalize (runRec initRec [ROp.start]) 0).recording
        = (runRec initRec [ROp.start]).recording) ∧
    (AudioRecorder.finalize (runRec initRec [ROp.start]) 0).streamOpen = true ∧
    (AudioRecorder.finalize (runRec initRec [ROp.start]) 0).sentinels 0
      = (runRec initRec [ROp.start]).sentinels 0 + 1 := by
  have h := finalize_session_scoped (runRec initRec [ROp.start]) 0
  refine ⟨h.1, ?_, h.2.2.1⟩
  exact ((h.1 (by decide)).1).trans (by decide)

/-- C4 counterexample: the call sequence `start(); stop(); finalize(q1)`
— exactly the controller's stop path raced by a cancel-all that already
called `stop()` before the 200 ms tail finalize fires — pushes the
end-of-stream sentinel into the session queue (id 1) twice, refuting
"every queue ever created eventually receives exactly one end-of-stream
sentinel"; the constructor-allocated queue (id 0) moreover never
receives any. -/
theorem sentinel_not_exactly_once :
    (runRec initRec [ROp.start, ROp.stop, ROp.finalize 1]).sentinels 1 = 2 ∧
    (runRec initRec [ROp.start, ROp.stop, ROp.finalize 1]).sentinels 0 = 0 := by
  constructor <;> decide

/-- C4 (amended): for all sequences of `start`/`stop`/`finalize` calls,
at most one physical input stream is open at any instant (every
decomposition point of the event trace shows at most one net open
stream), and every session queue that has been ended — superseded as
current, or still current with recording over — has received at least
one sentinel (repeated `stop`/`finalize` calls may push further
sentinels into an already-terminated queue, and the constructor's
initial queue, id 0, may never receive one). -/
theorem stream_and_sentinel_invariant (ops : List ROp) :
    (∀ p q2, (runRec initRec ops).events = p ++ q2 → 0 ≤ ocnt 0 p ∧ ocnt 0 p ≤ 1) ∧
    (∀ q, 1 ≤ q → q < (runRec initRec ops).nextQueue → q ≠ (runRec initRec ops).curQueue →
      1 ≤ (runRec initRec ops).sentinels q) ∧
    ((runRec initRec ops).recording = false → 1 ≤ (runRec initRec ops).curQueue →
      1 ≤ (runRec initRec ops).sentinels (runRec initRec ops).curQueue) := by
  have h := recInv_runRec recInv_init ops
  exact ⟨fun p q2 hpq => okFrom_split h.ok hpq, h.nonCurSent, h.curSent⟩

/-- C4 witness: the amended invariant applied after `start(); stop()` —
the trace prefix `[open]` has one open stream, and the stopped session's
queue (id 1) holds at least one sentinel. -/
theorem stream_and_sentinel_invariant_witness :
    (0 ≤ ocnt 0 [REv.openS] ∧ ocnt 0 [REv.openS] ≤ 1) ∧
    1 ≤ (runRec initRec [ROp.start, ROp.stop]).sentinels
          (runRec initRec [ROp.start, ROp.stop]).curQueue := by
  have h := stream_and_sentinel_invariant [ROp.start, ROp.stop]
  refine ⟨h.1 [REv.openS] [REv.closeS, REv.sent 1] (by decide), ?_⟩
  exact h.2.2 (by decide) (by decide)

/-- C5: when `start()` is called while a recording is active (and hence a
stream is held), the previous session is forcibly ended: one sentinel is
pushed into the old queue, the frame buffer is reset, a brand-new queue
becomes current, recording stays on, and the emitted event trace shows
the old stream closing strictly before the new one opens.  The embedding
is a total function — the call never raises. -/
theorem start_forcibly_ends_previous (s : RecState)
    (hrec : s.recording = true) (hstr : s.streamOpen = true) :
    (AudioRecorder.start s).sentinels s.curQueue = s.sentinels s.curQueue + 1 ∧
    (AudioRecorder.start s).recording = true ∧
    (AudioRecorder.start s).streamOpen = true ∧
    (AudioRecorder.start s).frames = [] ∧
    (AudioRecorder.start s).curQueue = s.nextQueue ∧
    (s.curQueue < s.nextQueue → (AudioRecorder.start s).curQueue ≠ s.curQueue) ∧
    (AudioRecorder.start s).events
      = s.events ++ [REv.sent s.curQueue, REv.closeS, REv.openS] := by
  refine ⟨?_, ?_, ?_, ?_, ?_, ?_, ?_⟩ <;>
    simp [AudioRecorder.start, hrec, hstr, pushSent_self]
  omega

/-- C5 witness: `start()` called back-to-back — the second call on the
state left by the first forcibly ends session 1 (sentinel into queue 1,
close before open) and hands queue 2 to session 2. -/
theorem start_forcibly_ends_previous_witness :
    (AudioRecorder.start (runRec initRec [ROp.start])).sentinels
        (runRec initRec [ROp.start]).curQueue
      = (runRec initRec [ROp.start]).sentinels (runRec initRec [ROp.start]).curQueue + 1 ∧
    (AudioRecorder.start (runRec initRec [ROp.start])).recording = true ∧
    (AudioRecorder.start (runRec initRec [ROp.start])).streamOpen = true ∧
    (AudioRecorder.start (runRec initRec [ROp.start])).frames = [] ∧
    (AudioRecorder.start (runRec initRec [ROp.start])).curQueue
      = (runRec initRec [ROp.start]).nextQueue ∧
    ((runRec initRec [ROp.start]).curQueue < (runRec initRec [ROp.start]).nextQueue →
      (AudioRecorder.start (runRec initRec [ROp.start])).curQueue
        ≠ (runRec initRec [ROp.start]).curQueue) ∧
    (AudioRecorder.start (runRec initRec [ROp.start])).events
      = (runRec initRec [ROp.start]).events
          ++ [REv.sent (runRec initRec [ROp.start]).curQueue, REv.closeS, REv.openS] :=
  start_forcibly_ends_previous (runRec initRec [ROp.start]) (by decide) (by decide)

/-- Python's `str.strip()` with no argument: remove leading and trailing
whitespace.  Implemented structurally on the character list so that it
evaluates by kernel reduction. -/
def pyStrip (s : String) : String :=
  String.mk (((s.data.dropWhile Char.isWhitespace).reverse.dropWhile Char.isWhitespace).reverse)

/-! ## Streaming transcriber (src/services/transcriber.py, transcribe_streaming)

The external recognizer is a black box: what reaches the Python loop is
the sequence of `StreamingRecognizeResponse` values it yields.  A run is
therefore modelled by the list `received` of responses the loop managed
to iterate before the stream ended, together with `errored : Bool`
saying whether iteration ended by an exception (caught by the
`except` clause) or by normal exhaustion, and `clientOk : Bool` saying
whether `_get_client()` succeeded.  The interim callback may itself
raise, modelled by an `Except`-returning function whose outcome the loop
discards (`try ... except: pass`). -/

/-- One result inside a streaming response: the `is_final` flag and the
alternatives ranked by confidence (only the head is used). -/
structure SpeechResult where
  is_final : Bool
  alternatives : List String
deriving DecidableEq, Repr

/-- One streaming response: zero or more results. -/
structure SpeechResponse where
  results : List SpeechResult
deriving DecidableEq, Repr

/-- Body of the `for result in response.results` loop: skip a result
with no alternatives; append the top alternative to the finals or to
this response's interim parts according to `is_final`. -/
def processResult (acc : List String × List String) (r : SpeechResult) :
    List String × List String :=
  match r.alternatives with
  | [] => acc
  | t :: _ => if r.is_final then (acc.fst ++ [t], acc.snd) else (acc.fst, acc.snd ++ [t])

/-- Process one response: fold its results over the accumulated finals,
starting this response's interim parts from empty. -/
def processResponse (finals : List String) (results : List SpeechResult) :
    List String × List String :=
  results.foldl processResult (finals, [])

/-- The `for response in responses` loop.  `calls` records every string
handed to the interim callback; the callback's own outcome is discarded
(`try: on_interim(current) except Exception: pass`). -/
def streamLoop (onInterim : Option (String → Except Unit Unit)) :
    List String → List String → List SpeechResponse → List String × List String
  | finals, calls, [] => (finals, calls)
  | finals, calls, resp :: rest =>
    let fi := processResponse finals resp.results
    match onInterim with
    | none => streamLoop onInterim fi.fst calls rest
    | some f =>
      let current := pyStrip (String.join (fi.fst ++ fi.snd))
      let _attempt := f current
      streamLoop onInterim fi.fst (calls ++ [current]) rest

/-- `transcribe_streaming` (src/services/transcriber.py lines 75-170):
client-initialisation failure returns `None` before any response is
read; otherwise the response loop runs over everything received —
whether it then ended normally or by a caught exception (`errored`) the
function falls through to the same return: the joined finals, stripped,
or `None` when that is empty.  The second component is the list of
interim-callback invocations. -/
def transcribe_streaming (clientOk : Bool)
    (onInterim : Option (String → Except Unit Unit))
    (received : List SpeechResponse) (errored : Bool) :
    Option String × List String :=
  if !clientOk then (none, [])
  else
    let fc := streamLoop onInterim [] [] received
    let full_text := pyStrip (String.join fc.fst)
    ((if full_text = "" then none else some full_text), fc.snd)

/-- Finals accumulated by the response loop, as a pure function of the
received responses. -/
def finalsOf (finals : List String) : List SpeechResponse → List String
  | [] => finals
  | resp :: rest => finalsOf (processResponse finals resp.results).fst rest

/-- The strings handed to the interim callback, one per response: all
finals so far followed by the response's interim parts, joined and
stripped. -/
def interimCalls (finals : List String) : List SpeechResponse → List String
  | [] => []
  | resp :: rest =>
    let fi := processResponse finals resp.results
    pyStrip (String.join (fi.fst ++ fi.snd)) :: interimCalls fi.fst rest

theorem streamLoop_eq (f : String → Except Unit Unit) (finals calls : List String)
    (received : List SpeechResponse) :
    streamLoop (some f) finals calls received
      = (finalsOf finals received, calls ++ interimCalls finals received) := by
  induction received generalizing finals calls with
  | nil => simp [streamLoop, finalsOf, interimCalls]
  | cons resp rest ih => simp [streamLoop, finalsOf, interimCalls, ih]

theorem processResult_fst_extends (acc : List String × List String) (r : SpeechResult) :
    ∃ e, (processResult acc r).fst = acc.fst ++ e := by
  unfold processResult
  match r.alternatives with
  | [] => exact ⟨[], by simp⟩
  | t :: _ =>
    by_cases hf : r.is_final = true
    · exact ⟨[t], by simp [hf]⟩
    · exact ⟨[], by simp [hf]⟩

theorem foldl_processResult_extends (rs : List SpeechResult) (acc : List String × List String) :
    ∃ e, (rs.foldl processResult acc).fst = acc.fst ++ e := by
  induction rs generalizing acc with
  | nil => exact ⟨[], by simp⟩
  | cons r rest ih =>
    obtain ⟨e1, he1⟩ := processResult_fst_extends acc r
    obtain ⟨e2, he2⟩ := ih (processResult acc r)
    exact ⟨e1 ++ e2, by rw [List.foldl_cons, he2, he1, List.append_assoc]⟩

theorem finalsOf_extends (received : List SpeechResponse) (finals : List String) :
    ∃ e, finalsOf finals received = finals ++ e := by
  induction received generalizing finals with
  | nil => exact ⟨[], by simp [finalsOf]⟩
  | cons resp rest ih =>
    obtain ⟨e1, he1⟩ := foldl_processResult_extends resp.results (finals, [])
    obtain ⟨e2, he2⟩ := ih (processResponse finals resp.results).fst
    refine ⟨e1 ++ e2, ?_⟩
    rw [finalsOf, he2]
    rw [show (processResponse finals resp.results).fst = finals ++ e1 from he1]
    rw [List.append_assoc]

theorem finalsOf_append (finals : List String) (l1 l2 : List SpeechResponse) :
    finalsOf finals (l1 ++ l2) = finalsOf (finalsOf finals l1) l2 := by
  induction l1 generalizing finals with
  | nil => rfl
  | cons r rest ih => simp [finalsOf, ih]

theorem interimCalls_length (finals : List String) (received : List SpeechResponse) :
    (interimCalls finals received).length = received.length := by
  induction received generalizing finals with
  | nil => rfl
  | cons r rest ih => simp [interimCalls, ih]

/-- C6 counterexample: the backend yields one response carrying the
final "hello", then the stream raises — `transcribe_streaming` returns
`some "hello"`, not the empty/no-transcript result the claim promises
for every failure. -/
theorem streaming_error_keeps_partial_finals :
    (transcribe_streaming true (some fun _ => Except.ok ())
        [⟨[⟨true, ["hello"]⟩]⟩] true).fst = some "hello" ∧
    (transcribe_streaming true (some fun _ => Except.ok ())
        [⟨[⟨true, ["hello"]⟩]⟩] true).fst ≠ none := by
  constructor <;> decide

/-- C6 (amended): a backend/network exception ends the response loop and
is never propagated (the embedding is total, and the result with
`errored = true` equals the result of a clean termination over the same
received responses); the function then returns the finalized text
accumulated before the failure, or the no-transcript result `None` when
nothing was finalized — in particular `None` when the failure struck
before any final result, and `None` when client initialisation fails. -/
theorem streaming_failure_returns_accumulated_finals
    (onI : String → Except Unit Unit) (received : List SpeechResponse) (errored : Bool) :
    transcribe_streaming false (some onI) received errored = (none, []) ∧
    transcribe_streaming true (some onI) received errored
      = transcribe_streaming true (some onI) received false ∧
    (pyStrip (String.join (finalsOf [] received)) = "" →
      (transcribe_streaming true (some onI) received errored).fst = none) ∧
    (pyStrip (String.join (finalsOf [] received)) ≠ "" →
      (transcribe_streaming true (some onI) received errored).fst
        = some (pyStrip (String.join (finalsOf [] received)))) := by
  refine ⟨by simp [transcribe_streaming], rfl, ?_, ?_⟩
  · intro hemp
    simp [transcribe_streaming, streamLoop_eq, hemp]
  · intro hne
    simp [transcribe_streaming, streamLoop_eq, hne]

/-- C6 witness: with an immediately-failing stream (no responses
received), the error path returns the no-transcript result. -/
theorem streaming_failure_returns_accumulated_finals_witness :
    pyStrip (String.join (finalsOf [] ([] : List SpeechResponse))) = "" ∧
    (transcribe_streaming true (some fun _ => Except.ok ()) [] true).fst = none := by
  refine ⟨by decide, ?_⟩
  exact (streaming_failure_returns_accumulated_finals
    (fun _ => Except.ok ()) [] true).2.2.1 (by decide)

/-- C7: per-response partition and accumulation of the streaming loop —
the loop's outputs are independent of the callback's behaviour (callback
exceptions are swallowed); the finals it returns are `finalsOf`, the
callback receives exactly one string per response, namely all finals so
far plus the current interim parts, joined and stripped; finals already
accumulated are never revised by later responses (they extend by
suffix); and on termination the joined finalized text, or `None` if
empty, is returned. -/
theorem streaming_partition_accumulate (f g : String → Except Unit Unit)
    (calls : List String) (received more : List SpeechResponse) :
    streamLoop (some f) [] calls received = streamLoop (some g) [] calls received ∧
    (streamLoop (some f) [] calls received).fst = finalsOf [] received ∧
    (streamLoop (some f) [] calls received).snd = calls ++ interimCalls [] received ∧
    (∃ extra, finalsOf [] (received ++ more) = finalsOf [] received ++ extra) ∧
    (interimCalls [] received).length = received.length ∧
    (transcribe_streaming true (some f) received false).fst
      = (if pyStrip (String.join (finalsOf [] received)) = ""
         then none else some (pyStrip (String.join (finalsOf [] received)))) := by
  refine ⟨?_, ?_, ?_, ?_, interimCalls_length [] received, ?_⟩
  · rw [streamLoop_eq, streamLoop_eq]
  · rw [streamLoop_eq]
  · rw [streamLoop_eq]
  · rw [finalsOf_append]
    exact finalsOf_extends more (finalsOf [] received)
  · simp [transcribe_streaming, streamLoop_eq]

/-! ## Post-processor (src/postprocess.py, postprocess)

The Gemini backend (client acquisition plus the single
`generate_content` call inside the `try` block) is abstracted as one
function from the full prompt to `Except Unit String`; `Except.error`
stands for any exception raised anywhere inside the `try`.  The second
component of the result counts backend attempts, so "no network call"
and "exactly one request" are statable. -/

/-- `postprocess(transcript, prompt)` (src/postprocess.py lines 64-101):
strip the instruction; if it or the transcript is empty return the
transcript untouched with no backend attempt; otherwise build the full
prompt, make exactly one backend attempt, and return its stripped text —
falling back to the original transcript when that text is empty or when
the attempt raised. -/
def postprocess (transcript : String) (prompt : String)
    (backend : String → Except Unit String) : String × Nat :=
  let prompt := pyStrip prompt
  if prompt = "" ∨ transcript = "" then (transcript, 0)
  else
    let full_prompt := prompt ++ "\n\nTranscript:\n" ++ transcript ++
      "\n\nRespond ONLY with the processed text, nothing else."
    match backend full_prompt with
    | Except.ok response =>
      let result := pyStrip response
      (if result = "" then transcript else result, 1)
    | Except.error _ => (transcript, 1)

/-- C8: `postprocess` returns the transcript unchanged, with no backend
request, when the (stripped) instruction is empty or the transcript is
empty; returns the transcript unchanged when the backend raises; and
otherwise issues exactly one request. -/
theorem postprocess_fail_open (transcript prompt : String)
    (backend : String → Except Unit String) :
    (pyStrip prompt = "" ∨ transcript = "" →
      postprocess transcript prompt backend = (transcript, 0)) ∧
    ((∀ s, backend s = Except.error ()) →
      (postprocess transcript prompt backend).fst = transcript) ∧
    (pyStrip prompt ≠ "" → transcript ≠ "" →
      (postprocess transcript prompt backend).snd = 1) := by
  refine ⟨?_, ?_, ?_⟩
  · intro h
    simp [postprocess, h]
  · intro hb
    by_cases h : pyStrip prompt = "" ∨ transcript = ""
    · simp [postprocess, h]
    · simp [postprocess, h, hb]
  · intro h1 h2
    have h : ¬ (pyStrip prompt = "" ∨ transcript = "") := by
      rintro (h | h)
      · exact h1 h
      · exact h2 h
    cases hb : backend (pyStrip prompt ++ "\n\nTranscript:\n" ++ transcript ++
        "\n\nRespond ONLY with the processed text, nothing else.") with
    | ok r => simp [postprocess, h, hb]
    | error e => simp [postprocess, h, hb]

/-- C8 witness: an empty instruction is a pure no-op; a failing backend
leaves a non-empty transcript unchanged; a non-empty pair issues one
request. -/
theorem postprocess_fail_open_witness :
    postprocess "hi there" "" (fun _ => Except.error ()) = ("hi there", 0) ∧
    (postprocess "hi there" "fix grammar" (fun _ => Except.error ())).fst = "hi there" ∧
    (postprocess "hi there" "fix grammar" (fun _ => Except.error ())).snd = 1 := by
  refine ⟨?_, ?_, ?_⟩
  · exact (postprocess_fail_open "hi there" "" (fun _ => Except.error ())).1
      (Or.inl (by decide))
  · exact (postprocess_fail_open "hi there" "fix grammar" (fun _ => Except.error ())).2.1
      (fun s => rfl)
  · exact (postprocess_fail_open "hi there" "fix grammar" (fun _ => Except.error ())).2.2
      (by decide) (by decide)

/-! ## Session controller (src/controller.py, class AppController)

The controller's cancellation mechanism is a process-wide generation
counter bumped only by `on_cancel_all`.  Deferred work — the two
clipboard-swap timers scheduled by `_do_insert`, and the
`transcription_done` / `transcription_failed` signals queued for the UI
thread by `_wait_for_streaming` — each carries the generation captured
at scheduling time and re-checks it against the live counter immediately
before acting.  The state below carries the counter, the clipboard
(mime-format/data pairs), the queue of not-yet-fired deferred actions,
and the log of user-observable effects; the step relation lets those
deferred actions fire in any order, interleaved with new scheduling and
with cancel-all events, which models every interleaving of
background-thread completion times. -/

/-- Clipboard contents: one data entry per mime format, as saved and
restored by `_do_insert` via `QMimeData`. -/
abbrev Mime := List (String × String)

/-- User-observable effects, each carrying the generation of the session
that produced it. -/
inductive Obs where
  | clipboardWrite (g : Nat) (text : String) : Obs
  | pasteKey (g : Nat) : Obs
  | clipboardRestore (g : Nat) (m : Mime) : Obs
  | msgDone (g : Nat) (msgId : Nat) (text : String) : Obs
  | msgFailed (g : Nat) (msgId : Nat) : Obs
deriving DecidableEq, Repr

/-- Generation tag of an observable effect. -/
def obsTag : Obs → Nat
  | Obs.clipboardWrite g _ => g
  | Obs.pasteKey g => g
  | Obs.clipboardRestore g _ => g
  | Obs.msgDone g _ _ => g
  | Obs.msgFailed g _ => g

/-- Deferred actions awaiting their turn: the 80 ms paste timer and the
350 ms restore timer from `_do_insert`, and the queued
`transcription_done` / `transcription_failed` signal deliveries. -/
inductive Pending where
  | paste (g : Nat) : Pending
  | restore (g : Nat) (saved : Mime) : Pending
  | doneSig (g : Nat) (msgId : Nat) (text : String) : Pending
  | failedSig (g : Nat) (msgId : Nat) (msg : String) : Pending
deriving DecidableEq, Repr

/-- Generation captured when the deferred action was scheduled. -/
def pendTag : Pending → Nat
  | Pending.paste g => g
  | Pending.restore g _ => g
  | Pending.doneSig g _ _ => g
  | Pending.failedSig g _ _ => g

/-- Controller-visible state: current generation, clipboard, pending
deferred actions, and the log of observable effects so far. -/
structure CtrlState where
  gen : Nat
  clip : Mime
  pending : List Pending
  obs : List Obs

/-- Fire one deferred action.  Every branch begins with the source's
guard `if generation != self._current_generation(): return` — a stale
action is a silent no-op.  A live `paste` synthesizes the paste
keystroke (`_do_paste`, controller.py lines 376-391: press the platform
paste modifier unless it is already physically held, tap "v", release);
a live `restore` writes the saved mime snapshot back to the clipboard
(`_restore`, lines 395-398); a live `doneSig` completes the chat bubble
(`_on_transcription_done`, lines 406-416); a live `failedSig` removes it
(`_on_transcription_failed`, lines 418-427). -/
def fireOne (s : CtrlState) (p : Pending) : CtrlState :=
  match p with
  | Pending.paste g =>
    if g ≠ s.gen then s else { s with obs := s.obs ++ [Obs.pasteKey g] }
  | Pending.restore g saved =>
    if g ≠ s.gen then s
    else { s with clip := saved, obs := s.obs ++ [Obs.clipboardRestore g saved] }
  | Pending.doneSig g msgId text =>
    if g ≠ s.gen then s else { s with obs := s.obs ++ [Obs.msgDone g msgId text] }
  | Pending.failedSig g msgId _ =>
    if g ≠ s.gen then s else { s with obs := s.obs ++ [Obs.msgFailed g msgId] }

/-- `_do_insert(text)` (controller.py lines 359-400): snapshot every
clipboard format, overwrite the clipboard with the transcript as plain
text, then capture the current generation and schedule the gated paste
(80 ms) and restore (350 ms) timers carrying it.  The snapshot and the
write run unconditionally; the generation is captured only after the
write. -/
def do_insert (s : CtrlState) (text : String) : CtrlState :=
  let saved_mime := s.clip
  let s1 : CtrlState := { s with
    clip := [("text/plain", text)],
    obs := s.obs ++ [Obs.clipboardWrite s.gen text] }
  let generation := s1.gen
  { s1 with pending := s1.pending
      ++ [Pending.paste generation, Pending.restore generation saved_mime] }

/-- `on_cancel_all` (controller.py lines 290-300): bump the generation
counter, invalidating every in-flight generation check, and stop the
pending QTimers (the paste/restore timers registered in
`_pending_timers`); queued Qt signal deliveries are not timers and stay
queued — their handlers' generation guards silence them instead.  The
recorder stop and overlay dismissal touch state outside this model. -/
def on_cancel_all (s : CtrlState) : CtrlState :=
  { s with
    gen := s.gen + 1,
    pending := s.pending.filter fun p =>
      match p with
      | Pending.paste _ => false
      | Pending.restore _ _ => false
      | _ => true }

/-- One scheduler step of the controller system: fire any pending
deferred action (in any order — this is the interleaving), run a
user-initiated insert, a cancel-all, or let a waiter thread of any
epoch enqueue its result signal (tag arbitrary: the waiter may have been
spawned under any earlier generation). -/
inductive CStep : CtrlState → CtrlState → Prop where
  | fire (s : CtrlState) (i : Nat) (h : i < s.pending.length) :
      CStep s { fireOne s (s.pending.get ⟨i, h⟩) with pending := s.pending.eraseIdx i }
  | insert (s : CtrlState) (text : String) : CStep s (do_insert s text)
  | cancel (s : CtrlState) : CStep s (on_cancel_all s)
  | enqueueDone (s : CtrlState) (g msgId : Nat) (text : String) :
      CStep s { s with pending := s.pending ++ [Pending.doneSig g msgId text] }
  | enqueueFailed (s : CtrlState) (g msgId : Nat) (msg : String) :
      CStep s { s with pending := s.pending ++ [Pending.failedSig g msgId msg] }

theorem fireOne_gen (s : CtrlState) (p : Pending) : (fireOne s p).gen = s.gen := by
  cases p <;> simp only [fireOne] <;> split <;> rfl

theorem fireOne_stale (s : CtrlState) (p : Pending) (h : pendTag p ≠ s.gen) :
    fireOne s p = s := by
  cases p <;> simp only [fireOne, pendTag] at h ⊢ <;> rw [if_pos h]

theorem fireOne_obs (s : CtrlState) (p : Pending) :
    ∃ new, (fireOne s p).obs = s.obs ++ new ∧ ∀ e ∈ new, obsTag e = s.gen := by
  cases p with
  | paste g =>
    by_cases hg : g ≠ s.gen
    · exact ⟨[], by simp [fireOne, hg]⟩
    · push_neg at hg
      exact ⟨[Obs.pasteKey g], by simp [fireOne, hg, obsTag]⟩
  | restore g saved =>
    by_cases hg : g ≠ s.gen
    · exact ⟨[], by simp [fireOne, hg]⟩
    · push_neg at hg
      exact ⟨[Obs.clipboardRestore g saved], by simp [fireOne, hg, obsTag]⟩
  | doneSig g msgId text =>
    by_cases hg : g ≠ s.gen
    · exact ⟨[], by simp [fireOne, hg]⟩
    · push_neg at hg
      exact ⟨[Obs.msgDone g msgId text], by simp [fireOne, hg, obsTag]⟩
  | failedSig g msgId msg =>
    by_cases hg : g ≠ s.gen
    · exact ⟨[], by simp [fireOne, hg]⟩
    · push_neg at hg
      exact ⟨[Obs.msgFailed g msgId], by simp [fireOne, hg, obsTag]⟩

theorem cstep_gen_mono {s t : CtrlState} (h : CStep s t) : s.gen ≤ t.gen := by
  cases h with
  | fire i hi => simp [fireOne_gen]
  | insert text => simp [do_insert]
  | cancel => simp [on_cancel_all]
  | enqueueDone g msgId text => simp
  | enqueueFailed g msgId msg => simp

theorem cstep_obs {s t : CtrlState} (h : CStep s t) :
    ∃ new, t.obs = s.obs ++ new ∧ ∀ e ∈ new, obsTag e = s.gen := by
  cases h with
  | fire i hi =>
    obtain ⟨new, hn, ht⟩ := fireOne_obs s (s.pending.get ⟨i, hi⟩)
    exact ⟨new, hn, ht⟩
  | insert text => exact ⟨[Obs.clipboardWrite s.gen text], by simp [do_insert], by simp [obsTag]⟩
  | cancel => exact ⟨[], by simp [on_cancel_all], by simp⟩
  | enqueueDone g msgId text => exact ⟨[], by simp, by simp⟩
  | enqueueFailed g msgId msg => exact ⟨[], by simp, by simp⟩

theorem csteps_gen_mono {s t : CtrlState} (h : Relation.ReflTransGen CStep s t) :
    s.gen ≤ t.gen := by
  induction h with
  | refl => exact Nat.le_refl _
  | tail _ hstep ih => exact Nat.le_trans ih (cstep_gen_mono hstep)

/-- C1: once the generation counter has moved past `G`, no paste
keystroke, clipboard restore, or transcription-result delivery (success
or failure) tagged `G` is observable afterwards, for every interleaving
of deferred-action firings, inserts, cancels, and waiter completions;
and every deferred action whose captured generation differs from the
live one fires as a silent no-op. -/
theorem generation_bump_silences_stale (G : Nat) (s0 s1 : CtrlState)
    (htrace : Relation.ReflTransGen CStep s0 s1) (hG : G < s0.gen) :
    (∃ new, s1.obs = s0.obs ++ new ∧ ∀ e ∈ new, obsTag e ≠ G) ∧
    (∀ s p, pendTag p ≠ s.gen → fireOne s p = s) := by
  refine ⟨?_, fun s p h => fireOne_stale s p h⟩
  induction htrace with
  | refl => exact ⟨[], by simp, by simp⟩
  | tail hpre hstep ih =>
    obtain ⟨new1, hn1, ht1⟩ := ih
    obtain ⟨new2, hn2, ht2⟩ := cstep_obs hstep
    refine ⟨new1 ++ new2, by rw [hn2, hn1, List.append_assoc], ?_⟩
    intro e he
    rcases List.mem_append.mp he with h1 | h2
    · exact ht1 e h1
    · have hb := csteps_gen_mono hpre
      have := ht2 e h2
      omega

/-- Concrete start state for the C1 witness: the counter already bumped
to 1 while a paste timer tagged 0 is still pending. -/
def c1ex0 : CtrlState :=
  { gen := 1, clip := [], pending := [Pending.paste 0], obs := [] }

/-- State after the stale paste timer fires in `c1ex0`. -/
def c1ex1 : CtrlState :=
  { fireOne c1ex0 (c1ex0.pending.get ⟨0, by decide⟩) with
      pending := c1ex0.pending.eraseIdx 0 }

/-- C1 witness: firing the stale paste timer after the bump from 0 to 1
leaves the observable log free of generation-0 effects. -/
theorem generation_bump_silences_stale_witness :
    (∃ new, c1ex1.obs = c1ex0.obs ++ new ∧ ∀ e ∈ new, obsTag e ≠ 0) ∧
    (∀ s p, pendTag p ≠ s.gen → fireOne s p = s) :=
  generation_bump_silences_stale 0 c1ex0 c1ex1
    (Relation.ReflTransGen.single (CStep.fire c1ex0 0 (by decide))) (by decide)

/-- One abstract step of the clipboard-swap paste sequence of
`_do_insert`. -/
inductive InsertStep where
  | snapshot : InsertStep
  | writeText (text : String) : InsertStep
  | pasteKey : InsertStep
  | restoreClip : InsertStep
deriving DecidableEq, Repr

/-- A step of the sequence together with its generation gate: `some g`
when the code re-checks that the generation still equals `g` immediately
before the step acts, `none` when the step runs unguarded. -/
structure GatedStep where
  gate : Option Nat
  step : InsertStep
deriving DecidableEq, Repr

/-- Gating structure of `_do_insert(text)` as written (controller.py
lines 359-400), with `g` the generation current when it runs: the
clipboard snapshot (lines 366-370) and the plain-text clipboard write
(line 372) execute unconditionally — the generation is captured only
afterwards, at line 374 — while the scheduled `_do_paste` (line 377) and
`_restore` (line 396) closures each start with the
`generation != self._current_generation()` guard. -/
def doInsertPlan (text : String) (g : Nat) : List GatedStep :=
  [ { gate := none, step := InsertStep.snapshot },
    { gate := none, step := InsertStep.writeText text },
    { gate := some g, step := InsertStep.pasteKey },
    { gate := some g, step := InsertStep.restoreClip } ]

/-- C2 counterexample: not every step of the clipboard-swap sequence is
gated by an unchanged-generation check — the snapshot step (and the
clipboard write) run unguarded. -/
theorem insert_steps_not_all_gated :
    ¬ (∀ st ∈ doInsertPlan "hello" 0, st.gate.isSome = true) := by
  decide

/-- C2 (amended): in the clipboard-swap paste sequence only the two
delayed steps — synthesizing the paste keystroke and restoring the
snapshot — are gated by an unchanged-generation check made immediately
before acting; the snapshot and the plain-text clipboard write execute
unconditionally when the sequence starts, before the gating generation
is even captured.  Operationally, `do_insert` writes the clipboard and
logs the write at once, and schedules exactly the two gated pending
actions carrying the post-write generation. -/
theorem insert_gating_structure (text : String) (g : Nat) (s : CtrlState) :
    (∀ st ∈ doInsertPlan text g,
      ((st.step = InsertStep.pasteKey ∨ st.step = InsertStep.restoreClip) ↔
        st.gate = some g)) ∧
    (∀ st ∈ doInsertPlan text g,
      ((st.step = InsertStep.snapshot ∨ st.step = InsertStep.writeText text) ↔
        st.gate = none)) ∧
    ((do_insert s text).pending
        = s.pending ++ [Pending.paste s.gen, Pending.restore s.gen s.clip] ∧
      (do_insert s text).obs = s.obs ++ [Obs.clipboardWrite s.gen text] ∧
      (do_insert s text).clip = [("text/plain", text)] ∧
      (do_insert s text).gen = s.gen) := by
  refine ⟨?_, ?_, by simp [do_insert], by simp [do_insert], by simp [do_insert],
    by simp [do_insert]⟩
  · intro st hst
    simp only [doInsertPlan, List.mem_cons, List.not_mem_nil, or_false] at hst
    rcases hst with h | h | h | h <;> subst h <;> simp
  · intro st hst
    simp only [doInsertPlan, List.mem_cons, List.not_mem_nil, or_false] at hst
    rcases hst with h | h | h | h <;> subst h <;> simp

/-- Concrete state for the C2 witness. -/
def c2ex : CtrlState := { gen := 3, clip := [("text/html", "<b>old</b>")],
                          pending := [], obs := [] }

/-- C2 witness: for the concrete insert of "hi" under generation 3, the
paste step is gated on 3, the snapshot step is ungated, and `do_insert`
schedules exactly the two gated actions. -/
theorem insert_gating_structure_witness :
    (GatedStep.mk (some 3) InsertStep.pasteKey).gate = some 3 ∧
    (GatedStep.mk none InsertStep.snapshot).gate = none ∧
    (do_insert c2ex "hi").pending
      = c2ex.pending ++ [Pending.paste c2ex.gen, Pending.restore c2ex.gen c2ex.clip] := by
  have h := insert_gating_structure "hi" 3 c2ex
  refine ⟨?_, ?_, h.2.2.1⟩
  · exact (h.1 (GatedStep.mk (some 3) InsertStep.pasteKey) (by decide)).mp (Or.inl rfl)
  · exact (h.2.1 (GatedStep.mk none InsertStep.snapshot) (by decide)).mp (Or.inl rfl)

/-! ## Find/replace substitution and the waiter worker
(src/controller.py, _wait_for_streaming, lines 316-353)

The waiter joins the streaming thread, re-checks the generation, treats
a `None` or empty result as failure, optionally post-processes, re-checks
the generation again, applies the configured find/replace pairs in list
order, and emits the done signal.  Each `re.sub(r"\b" + re.escape(find)
+ r"\b", repl, text, flags=re.IGNORECASE)` replaces, scanning left to
right without rescanning replacements, every case-insensitive literal
occurrence of `find` delimited by word boundaries.  The substitution is
embedded below over ASCII word characters (`[A-Za-z0-9_]`) and
ASCII case folding, structurally recursive on a character budget so it
evaluates by reduction; the budget `text.length` always suffices because
a non-empty pattern consumes at least one character per step.  Python's
empty-pattern behaviour (inserting `repl` at every boundary) is not
exercised by the controller and is modelled as the identity. -/

/-- Word character in the sense of the regex `\b` boundary:
alphanumeric or underscore. -/
def isWordChar (c : Char) : Bool := c.isAlphanum || c == '_'

/-- Word boundary between two adjacent positions, `none` standing for
the edge of the string. -/
def boundary (a b : Option Char) : Bool :=
  (match a with | some x => isWordChar x | none => false)
    != (match b with | some y => isWordChar y | none => false)

/-- Case-insensitive literal prefix match. -/
def matchesCI : List Char → List Char → Bool
  | [], _ => true
  | _ :: _, [] => false
  | f :: fs, c :: cs => (f.toLower == c.toLower) && matchesCI fs cs

/-- Case-insensitive substring occurrence. -/
def hasSubstrCI (f : List Char) : List Char → Bool
  | [] => matchesCI f []
  | c :: cs => matchesCI f (c :: cs) || hasSubstrCI f cs

/-- Scan of `re.sub` with pattern `\b find \b` (case-insensitive) over
the remaining characters.  `prev` is the original-text character just
before the current position (`none` at the start); on a match —
case-insensitive prefix plus word boundaries on both sides — the
replacement is emitted and scanning resumes after the matched segment,
with `prev` the last matched original character, exactly as the regex
engine continues at the match end over the original text. -/
def subFuel (find repl : List Char) : Nat → Option Char → List Char → List Char
  | 0, _, l => l
  | _ + 1, _, [] => []
  | fuel + 1, prev, c :: cs =>
    if matchesCI find (c :: cs) && boundary prev (some c) &&
        boundary (((c :: cs).take find.length).getLast?) (((c :: cs).drop find.length).head?) then
      repl ++ subFuel find repl fuel (((c :: cs).take find.length).getLast?)
        ((c :: cs).drop find.length)
    else
      c :: subFuel find repl fuel (some c) cs

/-- One `re.sub(r"\b" + re.escape(find) + r"\b", repl, text,
flags=re.IGNORECASE)` call, for the non-empty patterns the controller
uses. -/
def reSubWord (find repl text : String) : String :=
  match find.data with
  | [] => text
  | _ :: _ => String.mk (subFuel find.data repl.data text.data.length none text.data)

/-- The `for find, repl in replacements` loop of `_wait_for_streaming`
(controller.py lines 345-351): the substitutions applied in list
order. -/
def applyReplacements (replacements : List (String × String)) (text : String) : String :=
  replacements.foldl (fun acc pr => reSubWord pr.fst pr.snd acc) text

/-- `_wait_for_streaming` (controller.py lines 316-353) after the
`thread.join()`: `curAtJoin` and `curAtPost` are the live generation
values read at its two checks (parameters, because a cancel may land
between them).  Returns the signal it emits, `none` when a stale
generation silences it.  The Python `if not text` treats both `None`
and the empty string as no transcript; `if prompt` runs the
post-processor only for a non-empty instruction. -/
def wait_for_streaming (generation curAtJoin curAtPost : Nat)
    (resultText : Option String) (prompt : String) (post : String → String)
    (replacements : List (String × String)) (msgId : Nat) : Option Pending :=
  if generation ≠ curAtJoin then none
  else
    match resultText with
    | none => some (Pending.failedSig generation msgId "No transcription returned.")
    | some text =>
      if text = "" then some (Pending.failedSig generation msgId "No transcription returned.")
      else
        let text1 := if prompt ≠ "" then post text else text
        if generation ≠ curAtPost then none
        else some (Pending.doneSig generation msgId (applyReplacements replacements text1))

theorem subFuel_no_match (find repl : List Char) :
    ∀ (fuel : Nat) (prev : Option Char) (l : List Char),
      hasSubstrCI find l = false → subFuel find repl fuel prev l = l := by
  intro fuel
  induction fuel with
  | zero => intro prev l h; rfl
  | succ f ih =>
    intro prev l h
    cases l with
    | nil => rfl
    | cons c cs =>
      simp only [hasSubstrCI, Bool.or_eq_false_iff] at h
      simp only [subFuel, h.1, Bool.false_and, if_neg (by simp : ¬ (false = true))]
      exact congrArg (c :: ·) (ih (some c) cs h.2)

/-- C10: the delivered text of a successful session is exactly the
post-processed transcript with the configured find/replace pairs applied
in list order — each pair replacing case-insensitive whole-word
occurrences — and the substitution sits after the optional post-process
and after the waiter's final generation check (a failed final check
delivers nothing).  A pattern with no case-insensitive occurrence leaves
the text untouched, and the concrete run shows matching is
case-insensitive and word-boundary-limited. -/
theorem replacements_after_final_check (generation msgId : Nat) (text prompt : String)
    (post : String → String) (replacements : List (String × String))
    (h1 : text ≠ "") (h2 : ∀ pr ∈ replacements, pr.fst ≠ "") :
    (wait_for_streaming generation generation generation (some text) prompt post
        replacements msgId
      = some (Pending.doneSig generation msgId
          (applyReplacements replacements (if prompt ≠ "" then post text else text)))) ∧
    (∀ cur2, generation ≠ cur2 →
      wait_for_streaming generation generation cur2 (some text) prompt post
        replacements msgId = none) ∧
    (∀ find repl t2, hasSubstrCI find.data t2.data = false → reSubWord find repl t2 = t2) ∧
    reSubWord "foo" "X" "Foo foothold FOO!" = "X foothold X!" := by
  refine ⟨?_, ?_, ?_, by decide⟩
  · simp [wait_for_streaming, h1]
  · intro cur2 hne
    simp [wait_for_streaming, h1, hne]
  · intro find repl t2 h
    cases hfd : find.data with
    | nil =>
      rw [hfd] at h
      have htrue : hasSubstrCI [] t2.data = true := by
        cases t2.data <;> simp [hasSubstrCI, matchesCI]
      rw [htrue] at h
      exact absurd h (by simp)
    | cons f0 fs =>
      rw [hfd] at h
      simp only [reSubWord, hfd]
      rw [subFuel_no_match (f0 :: fs) repl.data t2.data.length none t2.data h]

/-- C10 witness: generation 0 live at both checks, no post-process
instruction, one replacement pair ("foo" → "bar") on "hello foo". -/
theorem replacements_after_final_check_witness :
    wait_for_streaming 0 0 0 (some "hello foo") "" (fun t => t) [("foo", "bar")] 7
      = some (Pending.doneSig 0 7 (applyReplacements [("foo", "bar")]
          (if ("" : String) ≠ "" then (fun t => t) "hello foo" else "hello foo"))) :=
  (replacements_after_final_check 0 7 "hello foo" "" (fun t => t) [("foo", "bar")]
    (by decide) (by decide)).1
